import Mathlib

/-!
Shallow embedding of the Home Assistant StreamDeck driver (driver.py) and
proofs about its key-index remapping, render cache, text wrapping, screen
power handling and error recovery.

Conventions of the embedding:
- Python strings are `String` (or `List Char` for the text-layout code,
  which indexes into words character by character);
- machine integers are `Nat`/`Int` (no overflow is relevant here);
- the device handle is a pure description `Dev` carrying the key layout and
  flags saying which device calls would raise `TransportError`;
- remote reads (Home Assistant state fetches) are an oracle
  `remote : Nat -> Option Bool` giving the value a fresh fetch for a button
  would return at this instant;
- functions whose Python bodies can let a `TransportError` escape return
  `Except Unit _`; a `try/except TransportError: pass` in the source becomes
  a total function that drops the failed device call.
-/

/-- driver.py `StreamDeckDriver.__virtual_to_physical`.  `rows`/`cols` are
deck.key_layout(); `rows * cols` is deck.key_count(). -/
def virtualToPhysical (rows cols rot v : Nat) : Nat :=
  if rot = 0 then v
  else if rot = 90 then
    let whichrow := (rows - 1) - (v % rows)
    let whichcol := v / rows
    cols * whichrow + whichcol
  else if rot = 180 then (rows * cols - 1) - v
  else
    let whichrow := v % rows
    let whichcol := (cols - 1) - (v / rows)
    cols * whichrow + whichcol

/-- driver.py `StreamDeckDriver.__physical_to_virtual`. -/
def physicalToVirtual (rows cols rot p : Nat) : Nat :=
  if rot = 0 then p
  else if rot = 90 then
    let whichrow := p / cols
    let whichcol := p % cols
    ((rows - 1) - whichrow) + rows * whichcol
  else if rot = 180 then (rows * cols - 1) - p
  else
    let whichrow := p / cols
    let whichcol := p % cols
    whichrow + ((cols - 1) - whichcol) * rows

/-- C1: for every supported rotation and every virtual key `k` in range,
`physicalToVirtual` undoes `virtualToPhysical`, so the two index maps are
mutually inverse bijections on `[0, rows*cols)`. -/
theorem c1_key_maps_round_trip (rows cols rot k : Nat)
    (hrot : rot = 0 ∨ rot = 90 ∨ rot = 180 ∨ rot = 270)
    (hk : k < rows * cols) :
    physicalToVirtual rows cols rot (virtualToPhysical rows cols rot k) = k := by
  have hrows : 0 < rows := by
    rcases Nat.eq_zero_or_pos rows with h | h
    · subst h; simp at hk
    · exact h
  have hcols : 0 < cols := by
    rcases Nat.eq_zero_or_pos cols with h | h
    · subst h; simp at hk
    · exact h
  have hmod : k % rows < rows := Nat.mod_lt _ hrows
  have hdiv : k / rows < cols := by
    rw [Nat.div_lt_iff_lt_mul hrows]
    calc k < rows * cols := hk
    _ = cols * rows := Nat.mul_comm _ _
  have hmd : k % rows + rows * (k / rows) = k := Nat.mod_add_div k rows
  have hmd' : k % rows + k / rows * rows = k := Nat.mod_add_div' k rows
  rcases hrot with h | h | h | h <;> subst h
  · simp [virtualToPhysical, physicalToVirtual]
  · show ((rows - 1) - ((cols * ((rows - 1) - k % rows) + k / rows) / cols))
        + rows * ((cols * ((rows - 1) - k % rows) + k / rows) % cols) = k
    rw [Nat.mul_add_div hcols, Nat.div_eq_of_lt hdiv, Nat.add_zero,
      Nat.mul_add_mod, Nat.mod_eq_of_lt hdiv]
    omega
  · show rows * cols - 1 - (rows * cols - 1 - k) = k
    omega
  · show (cols * (k % rows) + ((cols - 1) - k / rows)) / cols
        + ((cols - 1) - (cols * (k % rows) + ((cols - 1) - k / rows)) % cols) * rows = k
    have hc : (cols - 1) - k / rows < cols :=
      lt_of_le_of_lt (Nat.sub_le _ _) (Nat.sub_lt hcols Nat.one_pos)
    have hss : cols - 1 - (cols - 1 - k / rows) = k / rows :=
      Nat.sub_sub_self (Nat.le_pred_of_lt hdiv)
    rw [Nat.mul_add_div hcols, Nat.div_eq_of_lt hc, Nat.add_zero,
      Nat.mul_add_mod, Nat.mod_eq_of_lt hc, hss]
    exact hmd'

/-- C1 witness: the round trip at rotation 90 on a 3x5 deck, key 7. -/
theorem c1_key_maps_round_trip_witness :
    physicalToVirtual 3 5 90 (virtualToPhysical 3 5 90 7) = 7 :=
  c1_key_maps_round_trip 3 5 90 7 (Or.inr (Or.inl rfl)) (by decide)

/-- Icon color roles (driver.py class IconColor). -/
structure IconColor where
  onV : String
  offV : String
  blank : String
deriving DecidableEq

/-- Icon image file roles (driver.py class IconImage). -/
structure IconImage where
  onV : String
  offV : String
  blank : String
deriving DecidableEq

/-- A key style triple (driver.py class KeyStyle). -/
structure KeyStyle where
  icon : String
  label : Option String
  color : String
deriving DecidableEq

/-- One configured button as the driver sees it: whether it is a BlankButton,
its icon hint and its label (driver.py classes BlankButton and
HomeAssistantButton, the two variants the program constructs). -/
structure ButtonV where
  isBlank : Bool
  icon : Option String
  label : String
deriving DecidableEq

/-- Reading `button.state`: a BlankButton always answers `some false`; a
HomeAssistantButton answers whatever the remote fetch returns right now
(`none` when the remote source is unreachable). -/
def buttonState (b : ButtonV) (remoteRead : Option Bool) : Option Bool :=
  if b.isBlank then some false else remoteRead

/-- Python truthiness of an `Optional[bool]`: only `True` is truthy. -/
def truthy : Option Bool → Bool
  | some true => true
  | _ => false

/-- The driver configuration fields `__update_key_image` consults. -/
structure Config where
  iconImages : IconImage
  iconColors : IconColor
  mdiFontPresent : Bool
  mdiKeys : List String
deriving DecidableEq

/-- The device handle as the driver uses it after construction: the key
layout, and which operation groups would raise TransportError when called. -/
structure Dev where
  rows : Nat
  cols : Nat
  brightnessFails : Bool
  keyImageFails : Bool
  resetFails : Bool
deriving DecidableEq

/-- deck.key_count(): the deck reports rows*cols keys. -/
def keyCount (dev : Dev) : Nat := dev.rows * dev.cols

/-- The driver's mutable fields (driver.py StreamDeckDriver).  `states` is the
`__states` dictionary; all its reads go through `.get(key, None)`, so it is
modelled as a total function into `Option Bool`. -/
structure DriverState where
  quirk : Bool
  buttons : List ButtonV
  states : Nat → Option Bool
  timeout : Int
  blanked : Bool
  lastbutton : Int
  brightness : Int
  rotation : Nat
  closed : Bool

/-- Device and remote side effects an operation performs, in order. -/
inductive Effect where
  | setBrightness (v : Int)
  | setKeyImage (physicalKey : Nat) (style : KeyStyle)
  | toggle (virtualKey : Nat)
  | resetDeck
  | closeDeck
deriving DecidableEq

/-- Stand-in for the assets folder (driver.py ASSETS_PATH). -/
def ASSETS_PATH : String := "Assets"

/-- os.path.join(ASSETS_PATH, name). -/
def assetsJoin (name : String) : String := ASSETS_PATH ++ "/" ++ name

/-- Python `a or b` for an optional string: `None` and `""` are falsy. -/
def pyOr (a : Option String) (b : String) : String :=
  match a with
  | some s => if s = "" then b else s
  | none => b

/-- Writing one key of the `__states` dictionary. -/
def updFn (f : Nat → Option Bool) (k : Nat) (v : Option Bool) : Nat → Option Bool :=
  fun n => if n = k then v else f n

/-- Placeholder for out-of-range `getD` reads; never observable because every
use is guarded by the source's own bounds check. -/
def bDefault : ButtonV := ⟨true, none, ""⟩

/-- driver.py `__update_key_image`, invalid-key branch: the decorative image
lookup for the slot (IndexError on an out-of-range read is caught and yields
no image, like the source's `except (KeyError, IndexError)`). -/
def slotIconImage (cfg : Config) (buttons : List ButtonV) (virtualKey : Nat) :
    Option String :=
  match buttons[virtualKey]? with
  | none => none
  | some b =>
    match b.icon with
    | none => none
    | some ic =>
      if cfg.mdiFontPresent && decide (ic ∈ cfg.mdiKeys) then some ic
      else if (ic.take 6).toLower = "image:" then some (assetsJoin (ic.drop 6))
      else none

/-- driver.py `StreamDeckDriver.__update_key_image`: the `(new __states,
KeyStyle)` pair the per-key refresh computes before writing the image. -/
def keyStyleAndStates (cfg : Config) (st : DriverState) (remote : Nat → Option Bool)
    (virtualKey : Nat) (cachedOnly : Bool) : (Nat → Option Bool) × KeyStyle :=
  let validKey : Bool :=
    !(decide (virtualKey ≥ st.buttons.length) || (st.buttons.getD virtualKey bDefault).isBlank)
  if st.blanked && st.quirk then
    let newStates :=
      if validKey && !cachedOnly then
        updFn st.states virtualKey
          (buttonState (st.buttons.getD virtualKey bDefault) (remote virtualKey))
      else st.states
    (newStates, ⟨assetsJoin cfg.iconImages.blank, none, "#000000"⟩)
  else if !validKey then
    (st.states,
      ⟨pyOr (slotIconImage cfg st.buttons virtualKey) (assetsJoin cfg.iconImages.blank),
        none, cfg.iconColors.blank⟩)
  else
    let b := st.buttons.getD virtualKey bDefault
    let state : Option Bool :=
      if cachedOnly then st.states virtualKey else buttonState b (remote virtualKey)
    let newStates :=
      if cachedOnly then st.states
      else updFn st.states virtualKey (buttonState b (remote virtualKey))
    let icon :=
      match b.icon with
      | some ic =>
        if cfg.mdiFontPresent && decide (ic ∈ cfg.mdiKeys) then ic
        else assetsJoin (if truthy state then cfg.iconImages.onV else cfg.iconImages.offV)
      | none => assetsJoin (if truthy state then cfg.iconImages.onV else cfg.iconImages.offV)
    (newStates,
      ⟨icon, some b.label, if truthy state then cfg.iconColors.onV else cfg.iconColors.offV⟩)

/-- driver.py `StreamDeckDriver.__update_key_image`: stores the computed
states, renders and writes the image.  The device write sits inside
try/except TransportError, so a failing write is dropped silently. -/
def updateKeyImage (cfg : Config) (dev : Dev) (st : DriverState) (remote : Nat → Option Bool)
    (virtualKey : Nat) (cachedOnly : Bool) : DriverState × List Effect :=
  let r := keyStyleAndStates cfg st remote virtualKey cachedOnly
  ({ st with states := r.1 },
    if dev.keyImageFails then []
    else [Effect.setKeyImage (virtualToPhysical dev.rows dev.cols st.rotation virtualKey) r.2])

/-- Folding `__update_key_image` over a list of virtual keys, as the loops in
`refresh` and in the wake branch of the key callback do. -/
def refreshKeys (cfg : Config) (dev : Dev) (st : DriverState) (remote : Nat → Option Bool)
    (cachedOnly : Bool) : List Nat → DriverState × List Effect
  | [] => (st, [])
  | k :: ks =>
    let r1 := updateKeyImage cfg dev st remote k cachedOnly
    let r2 := refreshKeys cfg dev r1.1 remote cachedOnly ks
    (r2.1, r1.2 ++ r2.2)

/-- driver.py `StreamDeckDriver.refresh`.  The result is `.error ()` when a
device call raises TransportError outside any try/except: the bare
`set_brightness(0)` in the blanking branch is such a call. -/
def refresh (cfg : Config) (dev : Dev) (st : DriverState) (remote : Nat → Option Bool)
    (now : Int) : Except Unit (DriverState × List Effect) :=
  if st.timeout > 0 ∧ st.lastbutton + st.timeout < now then
    if dev.brightnessFails then .error ()
    else
      let st1 := { st with blanked := true }
      let r := refreshKeys cfg dev st1 remote st.quirk (List.range (keyCount dev))
      .ok (r.1, Effect.setBrightness 0 :: r.2)
  else
    let r := refreshKeys cfg dev st remote false (List.range (keyCount dev))
    .ok r

/-- driver.py `StreamDeckDriver.__key_change_callback`.  `.error ()` models a
TransportError escaping the callback: the bare `set_brightness` in the wake
branch is outside any try/except. -/
def keyChangeCallback (cfg : Config) (dev : Dev) (st : DriverState)
    (remote : Nat → Option Bool) (physicalKey : Nat) (pressed : Bool) (now : Int) :
    Except Unit (DriverState × List Effect) :=
  if !pressed then .ok (st, [])
  else
    let virtualKey := physicalToVirtual dev.rows dev.cols st.rotation physicalKey
    if st.timeout > 0 ∧ st.lastbutton + st.timeout < now then
      if dev.brightnessFails then .error ()
      else
        let st1 := { st with blanked := false, lastbutton := now }
        if st1.quirk then
          let r := refreshKeys cfg dev st1 remote true (List.range (keyCount dev))
          .ok (r.1, Effect.setBrightness st.brightness :: r.2)
        else .ok (st1, [Effect.setBrightness st.brightness])
    else
      let toggles : List Effect :=
        if virtualKey < st.buttons.length then [Effect.toggle virtualKey] else []
      let st2 := { st with lastbutton := now }
      let r := updateKeyImage cfg dev st2 remote virtualKey false
      .ok (r.1, toggles ++ r.2)

/-- driver.py `StreamDeckDriver.close`: reset and close sit inside try/except
TransportError, so close never propagates the error. -/
def closeDriver (dev : Dev) (st : DriverState) : Except Unit (DriverState × List Effect) :=
  let st1 := { st with closed := true }
  if dev.resetFails then .ok (st1, []) else .ok (st1, [Effect.resetDeck, Effect.closeDeck])

/-- driver.py `StreamDeckDriver.brightness` setter: records the value; the
device call sits inside try/except TransportError. -/
def setBrightnessProp (dev : Dev) (st : DriverState) (v : Int) :
    Except Unit (DriverState × List Effect) :=
  let st1 := { st with brightness := v }
  if dev.brightnessFails then .ok (st1, []) else .ok (st1, [Effect.setBrightness v])

/-- driver.py `StreamDeckDriver.__init__`, the brightness-quirk decision: an
XL deck looks its firmware version up in a fixed table whose `.get` default is
True; every other deck type gets False. -/
def brightnessQuirk (deckType firmware : String) : Bool :=
  if deckType = "Stream Deck XL" then
    (List.lookup firmware
      [("1.01.000", false), ("1.00.010", true), ("1.00.006", false)]).getD true
  else false

/-- driver.py `HomeAssistantButton.state` setter: the URL posted when the
setter is called with `newstate`, given that the fresh `self.state` read the
setter itself performs returns `freshRead`.  The source computes
`turn_{'off' if self.state else 'on'}` without looking at `newstate`. -/
def haSetStateUrl (uri : String) (freshRead : Option Bool) (newstate : Bool) : String :=
  uri ++ "api/services/switch/turn_" ++ (if truthy freshRead then "off" else "on")

theorem keyStyleAndStates_cached_fst (cfg : Config) (st : DriverState)
    (remote : Nat → Option Bool) (k : Nat) :
    (keyStyleAndStates cfg st remote k true).1 = st.states := by
  unfold keyStyleAndStates
  simp only [Bool.not_true, Bool.and_false, Bool.false_eq_true, if_false]
  split
  · rfl
  · split
    · rfl
    · rfl

theorem keyStyleAndStates_cached_remote (cfg : Config) (st : DriverState)
    (r1 r2 : Nat → Option Bool) (k : Nat) :
    keyStyleAndStates cfg st r1 k true = keyStyleAndStates cfg st r2 k true := by
  unfold keyStyleAndStates
  simp only [Bool.not_true, Bool.and_false, Bool.false_eq_true, if_false, if_true]

theorem updateKeyImage_cached (cfg : Config) (dev : Dev) (st : DriverState)
    (remote : Nat → Option Bool) (k : Nat) :
    updateKeyImage cfg dev st remote k true =
      (st, if dev.keyImageFails then []
        else [Effect.setKeyImage (virtualToPhysical dev.rows dev.cols st.rotation k)
          (keyStyleAndStates cfg st remote k true).2]) := by
  simp only [updateKeyImage]
  rw [keyStyleAndStates_cached_fst]

theorem updateKeyImage_cached_remote (cfg : Config) (dev : Dev) (st : DriverState)
    (r1 r2 : Nat → Option Bool) (k : Nat) :
    updateKeyImage cfg dev st r1 k true = updateKeyImage cfg dev st r2 k true := by
  simp only [updateKeyImage]
  rw [keyStyleAndStates_cached_remote cfg st r1 r2 k]

theorem refreshKeys_cached (cfg : Config) (dev : Dev) (st : DriverState)
    (remote : Nat → Option Bool) (keys : List Nat) :
    refreshKeys cfg dev st remote true keys =
      (st, (keys.map (fun k => (updateKeyImage cfg dev st remote k true).2)).flatten) := by
  induction keys with
  | nil => simp [refreshKeys]
  | cons k ks ih =>
    simp only [refreshKeys]
    rw [show (updateKeyImage cfg dev st remote k true).1 = st from by
      rw [updateKeyImage_cached]]
    rw [ih]
    simp

theorem keyChangeCallback_wake (cfg : Config) (dev : Dev) (st : DriverState)
    (remote : Nat → Option Bool) (physicalKey : Nat) (now : Int)
    (hcond : st.timeout > 0 ∧ st.lastbutton + st.timeout < now)
    (hbf : dev.brightnessFails = false) :
    keyChangeCallback cfg dev st remote physicalKey true now =
      if st.quirk then
        .ok ((refreshKeys cfg dev { st with blanked := false, lastbutton := now } remote true
            (List.range (keyCount dev))).1,
          Effect.setBrightness st.brightness ::
            (refreshKeys cfg dev { st with blanked := false, lastbutton := now } remote true
              (List.range (keyCount dev))).2)
      else .ok ({ st with blanked := false, lastbutton := now },
        [Effect.setBrightness st.brightness]) := by
  unfold keyChangeCallback
  rw [if_neg (by simp), if_pos hcond, if_neg (by simp [hbf])]

theorem keyChangeCallback_press (cfg : Config) (dev : Dev) (st : DriverState)
    (remote : Nat → Option Bool) (physicalKey : Nat) (now : Int)
    (hcond : ¬(st.timeout > 0 ∧ st.lastbutton + st.timeout < now)) :
    keyChangeCallback cfg dev st remote physicalKey true now =
      ((fun virtualKey =>
        (fun r => Except.ok (r.1,
          (if virtualKey < st.buttons.length then [Effect.toggle virtualKey] else []) ++ r.2))
        (updateKeyImage cfg dev { st with lastbutton := now } remote virtualKey false))
        (physicalToVirtual dev.rows dev.cols st.rotation physicalKey)) := by
  unfold keyChangeCallback
  rw [if_neg (by simp), if_neg hcond]

/-- C2: a key press that arrives while the screen is blanked (the idle
timeout has elapsed) wakes the deck: the configured brightness is restored,
the blanked flag cleared, the press toggles no button, the cached last-known
states are untouched, the whole wake never consults the remote source, and
exactly when the quirk compensation is active every key is redrawn. -/
theorem c2_blanked_press_wakes (cfg : Config) (dev : Dev) (st : DriverState)
    (remote : Nat → Option Bool) (physicalKey : Nat) (now : Int)
    (hbf : dev.brightnessFails = false) (hkf : dev.keyImageFails = false)
    (hbl : st.blanked = true) (ht : st.timeout > 0) (hto : st.lastbutton + st.timeout < now) :
    ∃ st' effs, keyChangeCallback cfg dev st remote physicalKey true now = .ok (st', effs) ∧
      st'.blanked = false ∧ st'.lastbutton = now ∧ st'.states = st.states ∧
      Effect.setBrightness st.brightness ∈ effs ∧
      (∀ i, Effect.toggle i ∉ effs) ∧
      (st.quirk = true → ∀ k, k < keyCount dev →
        ∃ sty, Effect.setKeyImage (virtualToPhysical dev.rows dev.cols st.rotation k) sty ∈ effs) ∧
      (st.quirk = false → effs = [Effect.setBrightness st.brightness]) ∧
      (∀ remote2, keyChangeCallback cfg dev st remote2 physicalKey true now =
        keyChangeCallback cfg dev st remote physicalKey true now) := by
  have hw := keyChangeCallback_wake cfg dev st remote physicalKey now ⟨ht, hto⟩ hbf
  by_cases hq : st.quirk
  · rw [if_pos hq, refreshKeys_cached] at hw
    refine ⟨{ st with blanked := false, lastbutton := now },
      Effect.setBrightness st.brightness ::
        ((List.range (keyCount dev)).map
          (fun k => (updateKeyImage cfg dev { st with blanked := false, lastbutton := now }
            remote k true).2)).flatten,
      hw, rfl, rfl, rfl, List.mem_cons_self _ _, ?_, ?_, ?_, ?_⟩
    · intro i hmem
      rcases List.mem_cons.mp hmem with h | h
      · exact Effect.noConfusion h
      · rcases List.mem_flatten.mp h with ⟨l, hl, hel⟩
        rcases List.mem_map.mp hl with ⟨k, _, rfl⟩
        rw [updateKeyImage_cached] at hel
        simp [hkf] at hel
    · intro _ k hk
      refine ⟨(keyStyleAndStates cfg { st with blanked := false, lastbutton := now }
          remote k true).2, List.mem_cons_of_mem _ ?_⟩
      apply List.mem_flatten.mpr
      refine ⟨(updateKeyImage cfg dev { st with blanked := false, lastbutton := now }
          remote k true).2,
        List.mem_map.mpr ⟨k, List.mem_range.mpr hk, rfl⟩, ?_⟩
      rw [updateKeyImage_cached]
      simp [hkf]
    · intro hq0
      rw [hq0] at hq
      exact Bool.noConfusion hq
    · intro remote2
      rw [hw, keyChangeCallback_wake cfg dev st remote2 physicalKey now ⟨ht, hto⟩ hbf,
        if_pos hq, refreshKeys_cached]
      have hfun : (fun k => (updateKeyImage cfg dev
              { st with blanked := false, lastbutton := now } remote2 k true).2)
          = (fun k => (updateKeyImage cfg dev
              { st with blanked := false, lastbutton := now } remote k true).2) :=
        funext fun k => by
          rw [updateKeyImage_cached_remote cfg dev _ remote2 remote k]
      rw [hfun]
  · rw [if_neg hq] at hw
    refine ⟨{ st with blanked := false, lastbutton := now },
      [Effect.setBrightness st.brightness],
      hw, rfl, rfl, rfl, List.mem_cons_self _ _, ?_, ?_, ?_, ?_⟩
    · intro i hmem
      simp at hmem
    · intro h
      rw [h] at hq
      exact absurd rfl hq
    · intro _
      rfl
    · intro remote2
      rw [hw, keyChangeCallback_wake cfg dev st remote2 physicalKey now ⟨ht, hto⟩ hbf,
        if_neg hq]

theorem keyStyleAndStates_oob (cfg : Config) (st : DriverState) (remote : Nat → Option Bool)
    (k : Nat) (co : Bool) (hbl : st.blanked = false) (hoob : st.buttons.length ≤ k) :
    keyStyleAndStates cfg st remote k co =
      (st.states, ⟨assetsJoin cfg.iconImages.blank, none, cfg.iconColors.blank⟩) := by
  have h1 : decide (k ≥ st.buttons.length) = true := decide_eq_true_eq.mpr hoob
  unfold keyStyleAndStates
  simp only [hbl, Bool.false_and, Bool.false_eq_true, if_false, h1, Bool.true_or,
    Bool.not_true, Bool.not_false, if_true]
  simp [slotIconImage, List.getElem?_eq_none hoob, pyOr]

/-- C10: while awake, a press whose virtual index lies at or past the end of
the configured button list raises no error, toggles no button state, and
still redraws that key once with the blank slot style. -/
theorem c10_out_of_range_press (cfg : Config) (dev : Dev) (st : DriverState)
    (remote : Nat → Option Bool) (physicalKey : Nat) (now : Int)
    (hbl : st.blanked = false)
    (hcond : ¬(st.timeout > 0 ∧ st.lastbutton + st.timeout < now))
    (hoob : st.buttons.length ≤ physicalToVirtual dev.rows dev.cols st.rotation physicalKey) :
    keyChangeCallback cfg dev st remote physicalKey true now =
      .ok ({ st with lastbutton := now },
        if dev.keyImageFails then []
        else [Effect.setKeyImage
          (virtualToPhysical dev.rows dev.cols st.rotation
            (physicalToVirtual dev.rows dev.cols st.rotation physicalKey))
          ⟨assetsJoin cfg.iconImages.blank, none, cfg.iconColors.blank⟩]) := by
  rw [keyChangeCallback_press cfg dev st remote physicalKey now hcond]
  simp only []
  rw [if_neg (Nat.not_lt.mpr hoob)]
  simp only [updateKeyImage, List.nil_append]
  rw [keyStyleAndStates_oob cfg { st with lastbutton := now } remote
    (physicalToVirtual dev.rows dev.cols st.rotation physicalKey) false hbl hoob]

/-- A small concrete configuration for concrete evaluations. -/
def cfgW : Config :=
  ⟨⟨"On.png", "Off.png", "Blank.png"⟩, ⟨"#FFFFFF", "#777777", "#555555"⟩, false, []⟩

/-- A healthy 2x3 deck (no failing transport calls). -/
def devW : Dev := ⟨2, 3, false, false, false⟩

/-- A blanked driver with one Home Assistant button and the quirk active. -/
def stW : DriverState :=
  ⟨true, [⟨false, none, "lamp"⟩], fun _ => some false, 5, true, 0, 30, 0, false⟩

/-- C2 witness: the wake press on the concrete blanked quirky driver. -/
theorem c2_blanked_press_wakes_witness :
    ∃ st' effs, keyChangeCallback cfgW devW stW (fun _ => none) 0 true 10 = .ok (st', effs) ∧
      st'.blanked = false ∧ st'.lastbutton = 10 ∧ st'.states = stW.states ∧
      Effect.setBrightness stW.brightness ∈ effs ∧
      (∀ i, Effect.toggle i ∉ effs) ∧
      (stW.quirk = true → ∀ k, k < keyCount devW →
        ∃ sty, Effect.setKeyImage (virtualToPhysical devW.rows devW.cols stW.rotation k) sty ∈ effs) ∧
      (stW.quirk = false → effs = [Effect.setBrightness stW.brightness]) ∧
      (∀ remote2, keyChangeCallback cfgW devW stW remote2 0 true 10 =
        keyChangeCallback cfgW devW stW (fun _ => none) 0 true 10) :=
  c2_blanked_press_wakes cfgW devW stW (fun _ => none) 0 10 rfl rfl rfl (by decide) (by decide)

/-- An awake driver with one button, otherwise like `stW`. -/
def stA : DriverState :=
  ⟨true, [⟨false, none, "lamp"⟩], fun _ => some false, 5, false, 6, 30, 0, false⟩

/-- C10 witness: pressing physical key 3 of the awake one-button driver. -/
theorem c10_out_of_range_press_witness :
    keyChangeCallback cfgW devW stA (fun _ => none) 3 true 10 =
      .ok ({ stA with lastbutton := 10 },
        if devW.keyImageFails then []
        else [Effect.setKeyImage
          (virtualToPhysical devW.rows devW.cols stA.rotation
            (physicalToVirtual devW.rows devW.cols stA.rotation 3))
          ⟨assetsJoin cfgW.iconImages.blank, none, cfgW.iconColors.blank⟩]) :=
  c10_out_of_range_press cfgW devW stA (fun _ => none) 3 10 rfl (by decide) (by decide)

/-- C3 (amended): in the normal awake, non-cache-only per-key refresh, a
`None` state read styles the key exactly as a `False` read would, but the
fresh `None` is stored into `__states`, overwriting the cached value. -/
theorem c3_none_read_falsy_but_overwrites (cfg : Config) (dev : Dev) (st : DriverState)
    (remote : Nat → Option Bool) (k : Nat)
    (hbl : st.blanked = false) (hk : k < st.buttons.length)
    (hnb : (st.buttons.getD k bDefault).isBlank = false)
    (hr : remote k = none) :
    (updateKeyImage cfg dev st remote k false).1.states k = none ∧
    (updateKeyImage cfg dev st remote k false).2 =
      (updateKeyImage cfg dev st (fun i => if i = k then some false else remote i) k false).2 := by
  have h1 : decide (k ≥ st.buttons.length) = false := by simp [Nat.not_le.mpr hk]
  constructor
  · simp only [updateKeyImage]
    unfold keyStyleAndStates
    simp only [hbl, Bool.false_and, Bool.false_eq_true, if_false, h1, Bool.false_or, hnb,
      Bool.not_false, Bool.not_true, if_true]
    have hnb2 : (st.buttons[k]?.getD bDefault).isBlank = false := by simpa using hnb
    simp [updFn, buttonState, hnb2, hr]
  · simp only [updateKeyImage]
    unfold keyStyleAndStates
    simp only [hbl, Bool.false_and, Bool.false_eq_true, if_false, h1, Bool.false_or, hnb,
      Bool.not_false, Bool.not_true, if_true]
    have hnb2 : (st.buttons[k]?.getD bDefault).isBlank = false := by simpa using hnb
    simp [buttonState, hnb2, hr, truthy]

/-- An awake driver whose cache holds `some true` for key 0. -/
def stC : DriverState :=
  ⟨false, [⟨false, none, "lamp"⟩], fun _ => some true, 5, false, 6, 30, 0, false⟩

/-- C3 counterexample: the cached `some true` for key 0 is overwritten by the
fresh unreachable (`None`) read, while the claim says it is left unchanged. -/
theorem c3_cached_value_overwritten_cex :
    stC.states 0 = some true ∧
    (updateKeyImage cfgW devW stC (fun _ => none) 0 false).1.states 0 = none ∧
    ((none : Option Bool) ≠ some true) :=
  ⟨rfl, rfl, by decide⟩

/-- A 1x1 deck with healthy transport. -/
def devOne : Dev := ⟨1, 1, false, false, false⟩

/-- C4: during a periodic refresh while power-blanked with the quirk active,
every key is forced to the blank style, but the button's real state (here a
fresh `some true`) is NOT sampled into the cache: `refresh` passes
`cached_only=True` whenever the quirk is active, so the sampling guard
`valid_key and not cached_only` in `__update_key_image` never fires and the
cache keeps its stale `some false`. -/
theorem c4_blanked_refresh_does_not_sample :
    (refresh cfgW devOne stW (fun _ => some true) 10).toOption.map
        (fun r => (r.1.states 0, r.2)) =
      some (some false,
        [Effect.setBrightness 0,
         Effect.setKeyImage 0 ⟨assetsJoin "Blank.png", none, "#000000"⟩]) := by
  rfl

/-- A 1x1 deck whose set_brightness raises TransportError. -/
def devBad : Dev := ⟨1, 1, true, false, false⟩

/-- C5 counterexample: once the screen is due for blanking, the
TransportError from the bare `set_brightness(0)` escapes `refresh`, while the
claim says transport errors never propagate out of refresh. -/
theorem c5_transport_error_escapes_refresh_cex :
    refresh cfgW devBad stW (fun _ => some false) 10 = .error () := by
  rfl

/-- C5 (amended): transport errors are swallowed by the brightness property
setter, the per-key image write, and close; but the bare `set_brightness`
calls in the blanking branch of `refresh` and in the wake branch of the key
callback are unguarded, so a transport error there escapes those two paths. -/
theorem c5_transport_error_handling (cfg : Config) (dev : Dev) (st : DriverState)
    (remote : Nat → Option Bool) (physicalKey : Nat) (v now : Int) :
    (st.timeout > 0 → st.lastbutton + st.timeout < now → dev.brightnessFails = true →
      refresh cfg dev st remote now = .error ()) ∧
    (¬(st.timeout > 0 ∧ st.lastbutton + st.timeout < now) →
      ∃ r, refresh cfg dev st remote now = .ok r) ∧
    (st.timeout > 0 → st.lastbutton + st.timeout < now → dev.brightnessFails = true →
      keyChangeCallback cfg dev st remote physicalKey true now = .error ()) ∧
    (¬(st.timeout > 0 ∧ st.lastbutton + st.timeout < now) → ∀ pressed,
      ∃ r, keyChangeCallback cfg dev st remote physicalKey pressed now = .ok r) ∧
    (∃ r, closeDriver dev st = .ok r) ∧
    (∃ r, setBrightnessProp dev st v = .ok r) := by
  refine ⟨?_, ?_, ?_, ?_, ?_, ?_⟩
  · intro ht hto hbf
    unfold refresh
    rw [if_pos ⟨ht, hto⟩, if_pos hbf]
  · intro hcond
    unfold refresh
    rw [if_neg hcond]
    exact ⟨_, rfl⟩
  · intro ht hto hbf
    unfold keyChangeCallback
    rw [if_neg (by simp), if_pos ⟨ht, hto⟩, if_pos hbf]
  · intro hcond pressed
    cases pressed
    · exact ⟨(st, []), rfl⟩
    · rw [keyChangeCallback_press cfg dev st remote physicalKey now hcond]
      exact ⟨_, rfl⟩
  · unfold closeDriver
    split
    · exact ⟨_, rfl⟩
    · exact ⟨_, rfl⟩
  · unfold setBrightnessProp
    split
    · exact ⟨_, rfl⟩
    · exact ⟨_, rfl⟩

/-- C5 witness: on the concrete timed-out driver with a failing
set_brightness, both refresh and the wake press propagate the error, while
close still swallows its own transport failure. -/
theorem c5_transport_error_handling_witness :
    refresh cfgW devBad stW (fun _ => none) 10 = .error () ∧
    keyChangeCallback cfgW devBad stW (fun _ => none) 0 true 10 = .error () ∧
    (∃ r, closeDriver devBad stW = .ok r) := by
  obtain ⟨h1, _, h3, _, h5, _⟩ :=
    c5_transport_error_handling cfgW devBad stW (fun _ => none) 0 0 10
  exact ⟨h1 (by decide) (by decide) rfl, h3 (by decide) (by decide) rfl, h5⟩

/-- Python `f"{x}"` of an optional string: `None` prints as "None". -/
def pyOptStr : Option String → String
  | none => "None"
  | some s => s

/-- driver.py `__render_key_image` cache key:
`f"{icon_filename}-{icon_color}-{label_text}-{self.__rotation}"`. -/
def cacheKey (iconFilename iconColor : String) (labelText : Option String)
    (rot : Nat) : String :=
  iconFilename ++ "-" ++ iconColor ++ "-" ++ pyOptStr labelText ++ "-" ++ toString rot

/-- driver.py `__render_key_image` memoization over `__images`: look the key
up; on a miss invoke the renderer, store and return.  The Bool in the result
records whether the renderer ran. -/
def renderKeyImage (render : String → String → Option String → Nat → Nat)
    (images : List (String × Nat)) (iconFilename iconColor : String)
    (labelText : Option String) (rot : Nat) : Nat × List (String × Nat) × Bool :=
  let key := cacheKey iconFilename iconColor labelText rot
  match images.lookup key with
  | some buf => (buf, images, false)
  | none =>
    let buf := render iconFilename iconColor labelText rot
    (buf, (key, buf) :: images, true)

theorem renderKeyImage_hit (render : String → String → Option String → Nat → Nat)
    (images : List (String × Nat)) (i c : String) (l : Option String) (r : Nat) (buf : Nat)
    (h : images.lookup (cacheKey i c l r) = some buf) :
    renderKeyImage render images i c l r = (buf, images, false) := by
  simp only [renderKeyImage, h]

theorem renderKeyImage_miss (render : String → String → Option String → Nat → Nat)
    (images : List (String × Nat)) (i c : String) (l : Option String) (r : Nat)
    (h : images.lookup (cacheKey i c l r) = none) :
    renderKeyImage render images i c l r =
      (render i c l r, (cacheKey i c l r, render i c l r) :: images, true) := by
  simp only [renderKeyImage, h]

/-- C6 (amended): after a render request, its key maps to the returned
buffer; an identical second request returns that stored buffer without
running the renderer; a request runs the renderer exactly when its formatted
key string is absent from the cache; and a second request whose key string
differs from the first request's is a true miss on a fresh cache. -/
theorem c6_render_cache (render : String → String → Option String → Nat → Nat)
    (images : List (String × Nat)) (icon color : String) (label : Option String) (rot : Nat)
    (icon2 color2 : String) (label2 : Option String) (rot2 : Nat) :
    ((renderKeyImage render images icon color label rot).2.1.lookup
        (cacheKey icon color label rot) =
      some (renderKeyImage render images icon color label rot).1) ∧
    ((renderKeyImage render (renderKeyImage render images icon color label rot).2.1
        icon color label rot).1 = (renderKeyImage render images icon color label rot).1 ∧
      (renderKeyImage render (renderKeyImage render images icon color label rot).2.1
        icon color label rot).2.2 = false) ∧
    ((renderKeyImage render images icon color label rot).2.2 =
      (images.lookup (cacheKey icon color label rot)).isNone) ∧
    (cacheKey icon2 color2 label2 rot2 ≠ cacheKey icon color label rot →
      (renderKeyImage render (renderKeyImage render [] icon color label rot).2.1
        icon2 color2 label2 rot2).2.2 = true) := by
  have hstore : (renderKeyImage render images icon color label rot).2.1.lookup
      (cacheKey icon color label rot) =
      some (renderKeyImage render images icon color label rot).1 := by
    cases h : images.lookup (cacheKey icon color label rot) with
    | none => rw [renderKeyImage_miss render images icon color label rot h]; simp [List.lookup]
    | some buf => rw [renderKeyImage_hit render images icon color label rot buf h]; exact h
  refine ⟨hstore, ?_, ?_, ?_⟩
  · rw [renderKeyImage_hit render _ icon color label rot _ hstore]
    exact ⟨rfl, rfl⟩
  · cases h : images.lookup (cacheKey icon color label rot) with
    | none => rw [renderKeyImage_miss render images icon color label rot h]; simp [h]
    | some buf => rw [renderKeyImage_hit render images icon color label rot buf h]; simp [h]
  · intro hne
    have hb : (cacheKey icon2 color2 label2 rot2 == cacheKey icon color label rot) = false :=
      beq_eq_false_iff_ne.mpr hne
    rw [renderKeyImage_miss render [] icon color label rot rfl]
    rw [renderKeyImage_miss render _ icon2 color2 label2 rot2 (by simp [List.lookup, hb])]

/-- C6 counterexample: the tuples ("a-b","c",None,0) and ("a","b-c",None,0)
differ in their icon and color fields yet share the cache key
"a-b-c-None-0": after rendering the first, requesting the second is a cache
hit that skips the renderer, while the claim demands a miss for any change
in any field. -/
theorem c6_distinct_tuples_collide_cex :
    (("a-b", "c") ≠ (("a", "b-c") : String × String)) ∧
    cacheKey "a-b" "c" none 0 = cacheKey "a" "b-c" none 0 ∧
    (renderKeyImage (fun _ _ _ _ => 7)
      (renderKeyImage (fun _ _ _ _ => 7) [] "a-b" "c" none 0).2.1
      "a" "b-c" none 0).2.2 = false := by
  refine ⟨by decide, by decide, by decide⟩

/-- C6 witness: the cache behaviour at one concrete tuple. -/
theorem c6_render_cache_witness :
    (renderKeyImage (fun _ _ _ _ => 7)
      (renderKeyImage (fun _ _ _ _ => 7) [] "i.png" "#FFFFFF" (some "Lamp") 90).2.1
      "i.png" "#FFFFFF" (some "Lamp") 90).2.2 = false ∧
    (renderKeyImage (fun _ _ _ _ => 7)
      (renderKeyImage (fun _ _ _ _ => 7) [] "i.png" "#FFFFFF" (some "Lamp") 90).2.1
      "j.png" "#FFFFFF" (some "Lamp") 90).2.2 = true := by
  refine ⟨(c6_render_cache (fun _ _ _ _ => 7) [] "i.png" "#FFFFFF" (some "Lamp") 90
      "j.png" "#FFFFFF" (some "Lamp") 90).2.1.2,
    (c6_render_cache (fun _ _ _ _ => 7) [] "i.png" "#FFFFFF" (some "Lamp") 90
      "j.png" "#FFFFFF" (some "Lamp") 90).2.2.2 (by decide)⟩

/-- C8 (amended): only a "Stream Deck XL" deck defaults to quirky for a
firmware string outside the fixed table; every other deck type gets quirk
compensation off for all firmware strings. -/
theorem c8_quirk_defaults (deckType firmware : String) :
    (firmware ∉ ["1.01.000", "1.00.010", "1.00.006"] →
      brightnessQuirk "Stream Deck XL" firmware = true) ∧
    (deckType ≠ "Stream Deck XL" → brightnessQuirk deckType firmware = false) := by
  constructor
  · intro h
    have h1 : (firmware == "1.01.000") = false :=
      beq_eq_false_iff_ne.mpr fun he => h (by simp [he])
    have h2 : (firmware == "1.00.010") = false :=
      beq_eq_false_iff_ne.mpr fun he => h (by simp [he])
    have h3 : (firmware == "1.00.006") = false :=
      beq_eq_false_iff_ne.mpr fun he => h (by simp [he])
    unfold brightnessQuirk
    rw [if_pos rfl]
    simp [List.lookup, h1, h2, h3]
  · intro h
    unfold brightnessQuirk
    rw [if_neg h]

/-- C8 counterexample: a non-XL deck with a firmware string absent from the
quirk table gets quirk compensation off, not the claimed quirky default. -/
theorem c8_non_xl_not_quirky_cex :
    ("2.00.000" ∉ ["1.01.000", "1.00.010", "1.00.006"]) ∧
    brightnessQuirk "Stream Deck Mini" "2.00.000" = false ∧
    (false ≠ true) := by
  refine ⟨by decide, by decide, by decide⟩

/-- C8 witness: the two amended defaults at concrete deck strings. -/
theorem c8_quirk_defaults_witness :
    brightnessQuirk "Stream Deck XL" "9.99.999" = true ∧
    brightnessQuirk "Stream Deck Mini" "1.00.010" = false :=
  ⟨(c8_quirk_defaults "Stream Deck XL" "9.99.999").1 (by decide),
   (c8_quirk_defaults "Stream Deck Mini" "1.00.010").2 (by decide)⟩

/-- C9: the remote-backed state setter ignores `newstate` entirely: the URL
it posts is the same for any `newstate`, and it selects turn_off exactly when
the fresh read it performs returns `some true`, turn_on otherwise (including
an unknown `none` read). -/
theorem c9_setter_ignores_newstate (uri : String) (freshRead : Option Bool) (b b2 : Bool) :
    (haSetStateUrl uri freshRead b = haSetStateUrl uri freshRead b2) ∧
    (freshRead = some true →
      haSetStateUrl uri freshRead b = uri ++ "api/services/switch/turn_" ++ "off") ∧
    (freshRead ≠ some true →
      haSetStateUrl uri freshRead b = uri ++ "api/services/switch/turn_" ++ "on") := by
  refine ⟨rfl, ?_, ?_⟩
  · intro h
    subst h
    rfl
  · intro h
    have ht : truthy freshRead = false := by
      cases freshRead with
      | none => rfl
      | some v =>
        cases v with
        | false => rfl
        | true => exact absurd rfl h
    unfold haSetStateUrl
    rw [ht]
    simp

/-- C9 witness: the setter's URL at concrete inputs. -/
theorem c9_setter_ignores_newstate_witness :
    (haSetStateUrl "http://h/" none true = haSetStateUrl "http://h/" none false) ∧
    haSetStateUrl "http://h/" (some true) true = "http://h/" ++ "api/services/switch/turn_" ++ "off" ∧
    haSetStateUrl "http://h/" none false = "http://h/" ++ "api/services/switch/turn_" ++ "on" :=
  ⟨(c9_setter_ignores_newstate "http://h/" none true false).1,
   (c9_setter_ignores_newstate "http://h/" (some true) true true).2.1 rfl,
   (c9_setter_ignores_newstate "http://h/" none false false).2.2 (by decide)⟩

/-- C3 witness: at the concrete awake driver, the none-read styles as falsy
and overwrites the cache. -/
theorem c3_none_read_falsy_but_overwrites_witness :
    (updateKeyImage cfgW devW stC (fun _ => none) 0 false).1.states 0 = none ∧
    (updateKeyImage cfgW devW stC (fun _ => none) 0 false).2 =
      (updateKeyImage cfgW devW stC (fun i => if i = 0 then some false else none) 0 false).2 :=
  c3_none_read_falsy_but_overwrites cfgW devW stC (fun _ => none) 0 rfl (by decide) rfl rfl

/-- Python str.strip() on a list of characters. -/
def pyStrip (s : List Char) : List Char :=
  ((s.dropWhile Char.isWhitespace).reverse.dropWhile Char.isWhitespace).reverse

/-- driver.py `__split_word` scanning loop.  `sub` starts at 0; the Python
loop runs while `sub <= loc`, so `fuel` (the count of admissible `sub`
values still to try) starts at `loc + 1`, and the fuel-0 exit is the loop's
own fall-through to the even split. -/
def splitWordGo (w : List Char) (loc : Nat) : Nat → Nat → List Char × List Char
  | _, 0 => (w.take loc, w.drop loc)
  | sub, fuel + 1 =>
    if (w.getD (loc - sub) ' ').isUpper then (w.take (loc - sub), w.drop (loc - sub))
    else if loc + sub < w.length ∧ (w.getD (loc + sub) ' ').isUpper then
      (w.take (loc + sub), w.drop (loc + sub))
    else splitWordGo w loc (sub + 1) fuel

/-- driver.py `StreamDeckDriver.__split_word`. -/
def splitWord (w : List Char) : List Char × List Char :=
  splitWordGo w (w.length / 2) 0 (w.length / 2 + 1)

/-- Python str.split() without arguments: the maximal whitespace-free runs,
collected through a reversed accumulator. -/
def pySplitGo : List Char → List Char → List (List Char)
  | [], cur => if cur.isEmpty then [] else [cur.reverse]
  | c :: rest, cur =>
    if c.isWhitespace then
      if cur.isEmpty then pySplitGo rest [] else cur.reverse :: pySplitGo rest []
    else pySplitGo rest (c :: cur)

/-- Python `label_text.split()`. -/
def pySplit (s : List Char) : List (List Char) := pySplitGo s []

/-- driver.py `__get_wrapped_text` word loop: `done` holds the finished
lines, `cur` is `lines[-1]`. -/
def wrapLoop (getlength : List Char → Nat) (lineLength : Nat) :
    List (List Char) → List (List Char) → List Char → List (List Char)
  | [], done, cur => done ++ [cur]
  | w :: ws, done, cur =>
    let oldline := pyStrip cur
    let line := pyStrip (cur ++ ' ' :: w)
    if getlength line ≤ lineLength then wrapLoop getlength lineLength ws done line
    else if oldline ≠ [] then wrapLoop getlength lineLength ws (done ++ [cur]) w
    else
      wrapLoop getlength lineLength ws (done ++ [pyStrip (cur ++ ' ' :: (splitWord w).1)])
        (splitWord w).2

/-- driver.py `StreamDeckDriver.__get_wrapped_text`: wrap, then keep the
non-empty lines, each with its font parameters. -/
def getWrappedText (getlength : List Char → Nat) (getbbox : List Char → Nat × Nat)
    (labelText : List Char) (lineLength : Nat) : List (List Char × Nat × Nat) :=
  ((wrapLoop getlength lineLength (pySplit labelText) [] []).filter
    (fun ln => !ln.isEmpty)).map (fun ln => (ln, getbbox ln))

/-- The loop's own line accumulation: append a word after a single space. -/
def consLine (cur w : List Char) : List Char :=
  if cur = [] then w else cur ++ ' ' :: w

/-- A label's words joined by single spaces. -/
def joinWords (ws : List (List Char)) : List Char := ws.foldl consLine []

/-- A word as Python split() produces it: nonempty and whitespace-free. -/
def IsWord (w : List Char) : Prop := w ≠ [] ∧ ∀ c ∈ w, c.isWhitespace = false

/-- A line with no leading or trailing whitespace: a strip fixed point. -/
def CleanLine (s : List Char) : Prop :=
  s ≠ [] ∧ s.dropWhile Char.isWhitespace = s ∧
    s.reverse.dropWhile Char.isWhitespace = s.reverse

theorem dropWhile_ws_all (s : List Char) (h : ∀ c ∈ s, c.isWhitespace = false) :
    s.dropWhile Char.isWhitespace = s := by
  cases s with
  | nil => rfl
  | cons c t => simp [List.dropWhile_cons, h c (List.mem_cons_self c t)]

theorem length_dropWhile_ws_le (l : List Char) :
    (l.dropWhile Char.isWhitespace).length ≤ l.length := by
  induction l with
  | nil => simp
  | cons a t ih =>
    rw [List.dropWhile_cons]
    split
    · exact Nat.le_trans ih (Nat.le_succ _)
    · simp

theorem pySplitGo_words (s : List Char) : ∀ (cur : List Char),
    (∀ c ∈ cur, c.isWhitespace = false) →
    ∀ w ∈ pySplitGo s cur, IsWord w := by
  induction s with
  | nil =>
    intro cur hcur w hw
    unfold pySplitGo at hw
    by_cases hc : cur.isEmpty
    · rw [if_pos hc] at hw
      simp at hw
    · rw [if_neg hc] at hw
      simp at hw
      subst hw
      refine ⟨?_, fun c hcm => hcur c (by simpa using hcm)⟩
      simpa [List.isEmpty_iff] using hc
  | cons c rest ih =>
    intro cur hcur w hw
    unfold pySplitGo at hw
    by_cases hws : c.isWhitespace
    · rw [if_pos hws] at hw
      by_cases hc : cur.isEmpty
      · rw [if_pos hc] at hw
        exact ih [] (by simp) w hw
      · rw [if_neg hc] at hw
        rcases List.mem_cons.mp hw with h | h
        · subst h
          refine ⟨?_, fun d hd => hcur d (by simpa using hd)⟩
          simpa [List.isEmpty_iff] using hc
        · exact ih [] (by simp) w h
    · rw [if_neg hws] at hw
      refine ih (c :: cur) ?_ w hw
      intro d hd
      rcases List.mem_cons.mp hd with h | h
      · subst h
        simpa using hws
      · exact hcur d h

theorem pySplit_words (s : List Char) : ∀ w ∈ pySplit s, IsWord w :=
  pySplitGo_words s [] (by simp)

theorem pyStrip_clean (s : List Char) (h : CleanLine s) : pyStrip s = s := by
  obtain ⟨-, h1, h2⟩ := h
  unfold pyStrip
  rw [h1, h2, List.reverse_reverse]

theorem isWord_clean (w : List Char) (h : IsWord w) : CleanLine w := by
  obtain ⟨hne, hw⟩ := h
  exact ⟨hne, dropWhile_ws_all w hw,
    dropWhile_ws_all w.reverse (fun c hc => hw c (by simpa using hc))⟩

theorem isWord_clean_reverse (w : List Char) (h : IsWord w) : CleanLine w.reverse := by
  obtain ⟨hne, hw⟩ := h
  refine ⟨by simpa using hne, dropWhile_ws_all _ (fun c hc => hw c (by simpa using hc)), ?_⟩
  rw [List.reverse_reverse]
  exact dropWhile_ws_all w hw

theorem clean_head_not_ws (s : List Char) (h : CleanLine s) :
    ∃ c t, s = c :: t ∧ c.isWhitespace = false := by
  obtain ⟨hne, h1, -⟩ := h
  cases s with
  | nil => exact absurd rfl hne
  | cons c t =>
    refine ⟨c, t, rfl, ?_⟩
    cases hcc : c.isWhitespace with
    | false => rfl
    | true =>
      rw [List.dropWhile_cons, hcc] at h1
      simp at h1
      have hlen := length_dropWhile_ws_le t
      rw [h1] at hlen
      simp only [List.length_cons] at hlen
      omega

theorem clean_append (s w : List Char) (hs : CleanLine s) (hw : IsWord w) :
    CleanLine (s ++ ' ' :: w) := by
  obtain ⟨c, t, hct, hc⟩ := clean_head_not_ws s hs
  refine ⟨by simp, ?_, ?_⟩
  · rw [hct, List.cons_append, List.dropWhile_cons, hc]
    simp
  · obtain ⟨d, u, hdu, hd⟩ := clean_head_not_ws w.reverse (isWord_clean_reverse w hw)
    rw [List.reverse_append]
    rw [show (' ' :: w).reverse = d :: (u ++ [' ']) from by
      rw [show (' ' :: w).reverse = w.reverse ++ [' '] from by simp, hdu]
      simp]
    rw [List.cons_append, List.dropWhile_cons, hd]
    simp

theorem consLine_prefix (cur w : List Char) : ∃ t, consLine cur w = cur ++ t := by
  unfold consLine
  split
  · subst ‹cur = []›
    exact ⟨w, rfl⟩
  · exact ⟨' ' :: w, rfl⟩

theorem foldl_consLine_prefix (ws : List (List Char)) :
    ∀ cur, ∃ t, ws.foldl consLine cur = cur ++ t := by
  induction ws with
  | nil =>
    intro cur
    exact ⟨[], by simp⟩
  | cons w ws ih =>
    intro cur
    obtain ⟨t1, ht1⟩ := consLine_prefix cur w
    obtain ⟨t2, ht2⟩ := ih (consLine cur w)
    exact ⟨t1 ++ t2, by rw [List.foldl_cons, ht2, ht1, List.append_assoc]⟩

theorem consLine_clean (cur w : List Char) (hcur : cur = [] ∨ CleanLine cur) (hw : IsWord w) :
    CleanLine (consLine cur w) := by
  rcases hcur with h | h
  · subst h
    unfold consLine
    rw [if_pos rfl]
    exact isWord_clean w hw
  · unfold consLine
    rw [if_neg h.1]
    exact clean_append cur w h hw

theorem pyStrip_consLine (cur w : List Char) (hcur : cur = [] ∨ CleanLine cur) (hw : IsWord w) :
    pyStrip (cur ++ ' ' :: w) = consLine cur w := by
  rcases hcur with h | h
  · subst h
    unfold consLine
    rw [if_pos rfl]
    show pyStrip (' ' :: w) = w
    unfold pyStrip
    rw [List.dropWhile_cons, if_pos (by decide), dropWhile_ws_all w hw.2,
      dropWhile_ws_all w.reverse (fun c hc => hw.2 c (by simpa using hc))]
    exact List.reverse_reverse w
  · unfold consLine
    rw [if_neg h.1]
    exact pyStrip_clean _ (clean_append cur w h hw)

theorem wrapLoop_fits (getlength : List Char → Nat) (lineLength : Nat)
    (hmono : ∀ s t : List Char, getlength s ≤ getlength (s ++ t)) :
    ∀ (ws : List (List Char)) (cur : List Char),
      (∀ w ∈ ws, IsWord w) → (cur = [] ∨ CleanLine cur) →
      getlength (ws.foldl consLine cur) ≤ lineLength →
      wrapLoop getlength lineLength ws [] cur = [ws.foldl consLine cur] := by
  intro ws
  induction ws with
  | nil =>
    intro cur _ _ _
    rfl
  | cons w ws ih =>
    intro cur hws hcur hfit
    have hw : IsWord w := hws w (by simp)
    have hline := pyStrip_consLine cur w hcur hw
    have hfit' : getlength (ws.foldl consLine (consLine cur w)) ≤ lineLength := by
      simpa [List.foldl_cons] using hfit
    have hfitline : getlength (consLine cur w) ≤ lineLength := by
      obtain ⟨t, ht⟩ := foldl_consLine_prefix ws (consLine cur w)
      calc getlength (consLine cur w) ≤ getlength (consLine cur w ++ t) := hmono _ _
        _ = getlength (ws.foldl consLine (consLine cur w)) := by rw [ht]
        _ ≤ lineLength := hfit'
    simp only [wrapLoop]
    rw [hline, if_pos hfitline,
      ih (consLine cur w) (fun x hx => hws x (by simp [hx]))
        (Or.inr (consLine_clean cur w hcur hw)) hfit',
      List.foldl_cons]

theorem getWrappedText_single (getlength : List Char → Nat) (getbbox : List Char → Nat × Nat)
    (label : List Char) (lineLength : Nat)
    (hmono : ∀ s t : List Char, getlength s ≤ getlength (s ++ t))
    (hne : pySplit label ≠ [])
    (hfit : getlength (joinWords (pySplit label)) ≤ lineLength) :
    getWrappedText getlength getbbox label lineLength =
      [(joinWords (pySplit label), getbbox (joinWords (pySplit label)))] := by
  unfold getWrappedText
  rw [wrapLoop_fits getlength lineLength hmono (pySplit label) [] (pySplit_words label)
    (Or.inl rfl) hfit]
  have hjoin_ne : joinWords (pySplit label) ≠ [] := by
    cases hsp : pySplit label with
    | nil => exact absurd hsp hne
    | cons w ws =>
      have hw : IsWord w := by
        apply pySplit_words label
        rw [hsp]
        simp
      obtain ⟨t, ht⟩ := foldl_consLine_prefix ws (consLine [] w)
      unfold joinWords
      rw [List.foldl_cons, ht]
      rw [show consLine [] w = w from by unfold consLine; rw [if_pos rfl]]
      simp [hw.1]
  unfold joinWords at hjoin_ne ⊢
  have hie : ((pySplit label).foldl consLine []).isEmpty = false := by
    cases hE : ((pySplit label).foldl consLine []).isEmpty
    · rfl
    · exact absurd (List.isEmpty_iff.mp hE) hjoin_ne
  simp [List.filter, hie]

theorem getD_isUpper_false (w : List Char) (h : ∀ c ∈ w, c.isUpper = false) (i : Nat) :
    ((w[i]?).getD ' ').isUpper = false := by
  cases hx : w[i]? with
  | none => rfl
  | some c =>
    have hm : c ∈ w := by
      have hg := List.get?_eq_getElem? w i
      exact List.get?_mem (by rw [hg, hx])
    simpa using h c hm

theorem splitWordGo_no_upper (w : List Char) (loc : Nat)
    (h : ∀ c ∈ w, c.isUpper = false) :
    ∀ fuel sub, splitWordGo w loc sub fuel = (w.take loc, w.drop loc) := by
  intro fuel
  induction fuel with
  | zero =>
    intro sub
    rfl
  | succ fuel ih =>
    intro sub
    unfold splitWordGo
    rw [if_neg (by simp [getD_isUpper_false w h]),
      if_neg (by simp [getD_isUpper_false w h])]
    exact ih (sub + 1)

/-- C7 (amended): a label whose words joined by single spaces fit the limit
(under a width function monotone in appending) wraps to exactly that single
space-normalized line; an oversized single word is split by scanning outward
from the midpoint for an uppercase letter, a scan that includes the word's
first character, so "HelloWorld" yields ("Hello","World") while a word whose
only uppercase letter is its initial one (like "Abcde") is split at position
0 and survives whole; the split is exactly at the midpoint when the word has
no uppercase letter at all. -/
theorem c7_text_layout (getlength : List Char → Nat) (getbbox : List Char → Nat × Nat)
    (label : List Char) (lineLength : Nat) (w : List Char) :
    ((∀ s t : List Char, getlength s ≤ getlength (s ++ t)) →
      pySplit label ≠ [] →
      getlength (joinWords (pySplit label)) ≤ lineLength →
      getWrappedText getlength getbbox label lineLength =
        [(joinWords (pySplit label), getbbox (joinWords (pySplit label)))]) ∧
    ((∀ c ∈ w, c.isUpper = false) →
      splitWord w = (w.take (w.length / 2), w.drop (w.length / 2))) ∧
    splitWord "HelloWorld".toList = ("Hello".toList, "World".toList) ∧
    getWrappedText (fun s => s.length) (fun s => (s.length, s.length))
        "HelloWorld".toList 6 =
      [("Hello".toList, 5, 5), ("World".toList, 5, 5)] ∧
    splitWord "Abcde".toList = ([], "Abcde".toList) := by
  refine ⟨fun hmono hne hfit =>
      getWrappedText_single getlength getbbox label lineLength hmono hne hfit,
    fun h => splitWordGo_no_upper w (w.length / 2) h (w.length / 2 + 1) 0,
    by decide, by decide, by decide⟩

/-- C7 counterexample: "Abcde" has no internal uppercase letter, yet the
code splits it at position 0 (the initial capital found by the outward
scan), not at the midpoint ("Ab","cde") the claim requires, so wrapping it
at a narrow width leaves the word whole on one line; and a fitting label
with a double space wraps to the space-normalized line, not the trimmed
input. -/
theorem c7_split_not_midpoint_cex :
    (("Abcde".toList.drop 1).all (fun c => !c.isUpper) = true) ∧
    splitWord "Abcde".toList = ([], "Abcde".toList) ∧
    (([], "Abcde".toList) ≠ ("Ab".toList, "cde".toList)) ∧
    getWrappedText (fun s => s.length) (fun s => (s.length, s.length)) "Abcde".toList 3 =
      [("Abcde".toList, 5, 5)] ∧
    getWrappedText (fun s => s.length) (fun s => (s.length, s.length)) "a  b".toList 10 =
      [("a b".toList, 3, 3)] ∧
    pyStrip "a  b".toList ≠ "a b".toList := by
  refine ⟨by decide, by decide, by decide, by decide, by decide, by decide⟩

/-- C7 witness: the fitting label "hi there" wraps to one normalized line,
and the all-lowercase word "abcdef" splits at its midpoint. -/
theorem c7_text_layout_witness :
    getWrappedText (fun s => s.length) (fun s => (s.length, s.length)) "hi there".toList 20 =
      [(joinWords (pySplit "hi there".toList),
        ((joinWords (pySplit "hi there".toList)).length,
          (joinWords (pySplit "hi there".toList)).length))] ∧
    splitWord "abcdef".toList =
      ("abcdef".toList.take ("abcdef".toList.length / 2),
        "abcdef".toList.drop ("abcdef".toList.length / 2)) := by
  obtain ⟨h1, h2, -, -, -⟩ := c7_text_layout (fun s => s.length)
    (fun s => (s.length, s.length)) "hi there".toList 20 "abcdef".toList
  exact ⟨h1 (fun s t => by simp) (by decide) (by decide), h2 (by decide)⟩
